import Mathlib

/-!
Shallow embedding of the WHOIS-Tool repository (src/main.py).

The program is a menu-driven WHOIS lookup utility.  Its core pieces are:
  * `WhoisResult` — the dataclass holding one lookup's parsed fields
    (src/main.py lines 21-34), with its `to_dict` conversion;
  * `WhoisTool` — the session object holding the ordered result store
    `results`, the `functools.lru_cache(maxsize=128)` memoization attached
    to `_perform_whois_sync` (modelled explicitly as an LRU association
    list, most-recently-used first), and an instrumentation counter for
    invocations of the external `whois.whois` collaborator;
  * the lookup operations `perform_whois_sync` / `perform_whois_async`
    (lines 41-77) and the exports `export_to_json` / `export_to_csv`
    (lines 92-122), whose filesystem interaction is modelled as a trace of
    `FsOp` effects driven by a `FileSys` oracle that says which mkdir/open
    calls succeed.

The external WHOIS collaborator (`whois.whois`) is out of scope per the
spec; it is modelled as an oracle `String → Option WhoisData` where `none`
stands for any exception it raises.  Python runtime values that the
collaborator may return in a field are modelled by `PyVal` (a string, an
opaque datetime carrying its `str` and `repr` renderings, or a list).
-/

/-- An atomic Python value as it can appear inside a WHOIS field: a string,
or a datetime (opaque external type, carried with its `str` and `repr`
renderings). -/
inductive PyAtom where
  | pstr : String → PyAtom
  | pdatetime : String → String → PyAtom
deriving DecidableEq

/-- A Python value held by a WHOIS field: a single atom or a list of atoms
(the "single value vs list" shape the source data can take). -/
inductive PyVal where
  | single : PyAtom → PyVal
  | plist : List PyAtom → PyVal
deriving DecidableEq

/-- Python `str()` applied to a `PyAtom`. -/
def atomStr : PyAtom → String
  | .pstr s => s
  | .pdatetime s _ => s

/-- Python `repr()` applied to a `PyAtom`; strings gain quotes. -/
def atomRepr : PyAtom → String
  | .pstr s => "\x27" ++ s ++ "\x27"
  | .pdatetime _ r => r

/-- Python `str()` applied to a `PyVal`: an atom renders as itself, a list
renders as the bracketed comma-separated `repr`s of its elements. -/
def pyStr : PyVal → String
  | .single a => atomStr a
  | .plist xs => "[" ++ String.intercalate ", " (xs.map atomRepr) ++ "]"

/-- The structured fields the external WHOIS collaborator returns on
success (the attributes read off `whois.whois(domain)` at src/main.py
lines 62-69). -/
structure WhoisData where
  registrar : Option PyVal
  whois_server : Option PyVal
  creation_date : Option PyVal
  expiration_date : Option PyVal
  updated_date : Option PyVal
  status : Option PyVal
  name_servers : Option PyVal
  emails : Option PyVal
deriving DecidableEq

/-- The `WhoisResult` dataclass (src/main.py lines 21-31): the domain plus
the optional parsed fields, in declaration order. -/
structure WhoisResult where
  domain : String
  registrar : Option PyVal
  whois_server : Option PyVal
  creation_date : Option PyVal
  expiration_date : Option PyVal
  updated_date : Option PyVal
  status : Option PyVal
  name_servers : Option PyVal
  emails : Option PyVal
deriving DecidableEq

/-- `WhoisResult.to_dict` (src/main.py lines 33-34): `asdict` preserves
dataclass field declaration order, and each value becomes `str(v)` when it
is not `None`, else `None`. -/
def WhoisResult.to_dict (r : WhoisResult) : List (String × Option String) :=
  [("domain", some r.domain),
   ("registrar", r.registrar.map pyStr),
   ("whois_server", r.whois_server.map pyStr),
   ("creation_date", r.creation_date.map pyStr),
   ("expiration_date", r.expiration_date.map pyStr),
   ("updated_date", r.updated_date.map pyStr),
   ("status", r.status.map pyStr),
   ("name_servers", r.name_servers.map pyStr),
   ("emails", r.emails.map pyStr)]

/-- The dataclass field names of `WhoisResult`, in declaration order. -/
def fieldNames : List String :=
  ["domain", "registrar", "whois_server", "creation_date",
   "expiration_date", "updated_date", "status", "name_servers", "emails"]

/-- Lookup in an association list of `to_dict` shape (the Python dict is
keyed by field name; field names are pairwise distinct). -/
def dictLookup (k : String) (d : List (String × Option String)) :
    Option (Option String) :=
  (d.find? (fun p => p.1 == k)).map Prod.snd

/-- State of the `WhoisTool` instance: the session store `self.results`
(src/main.py line 38), the `lru_cache(maxsize=128)` state attached to
`_perform_whois_sync` (keyed by the domain argument; most-recently-used
entry first), and a counter of invocations of the external collaborator
`whois.whois` (the mock call counter of spec §8). -/
structure WhoisTool where
  results : List WhoisResult
  cache : List (String × Option WhoisResult)
  collabCalls : Nat
deriving DecidableEq

/-- A fresh `WhoisTool()` (src/main.py lines 37-39): empty store, empty
cache, no collaborator calls yet. -/
def initTool : WhoisTool :=
  { results := [], cache := [], collabCalls := 0 }

/-- CPython `lru_cache` hit test: the cached value for key `k`, if any. -/
def lruFind (c : List (String × Option WhoisResult)) (k : String) :
    Option (Option WhoisResult) :=
  (c.find? (fun p => p.1 == k)).map Prod.snd

/-- CPython `lru_cache` on a hit moves the entry to the
most-recently-used position, keeping its value. -/
def lruTouch (c : List (String × Option WhoisResult)) (k : String)
    (v : Option WhoisResult) : List (String × Option WhoisResult) :=
  (k, v) :: c.filter (fun p => p.1 != k)

/-- CPython `lru_cache` on a miss inserts the freshly computed value at
the most-recently-used position and, if the cache now exceeds
`maxsize = 128`, evicts the least-recently-used entry. -/
def lruInsert (c : List (String × Option WhoisResult)) (k : String)
    (v : Option WhoisResult) : List (String × Option WhoisResult) :=
  let c2 := (k, v) :: c
  if c2.length > 128 then c2.dropLast else c2

/-- The `WhoisResult(...)` constructor call at src/main.py lines 60-70:
a record built from the queried domain and the collaborator's fields. -/
def mkResult (domain : String) (data : WhoisData) : WhoisResult :=
  { domain := domain
    registrar := data.registrar
    whois_server := data.whois_server
    creation_date := data.creation_date
    expiration_date := data.expiration_date
    updated_date := data.updated_date
    status := data.status
    name_servers := data.name_servers
    emails := data.emails }

/-- `WhoisTool._perform_whois_sync` (src/main.py lines 54-77) together
with its `@lru_cache(maxsize=128)` decorator.  On a cache hit the body is
not executed: the memoized value is returned and the entry refreshed.  On
a miss the body runs: it invokes the external collaborator `w` (counted),
and either constructs a `WhoisResult` from the returned data, appends it
to `self.results` and returns it, or catches the collaborator's exception
and returns `None`; the decorator then memoizes the returned value (also
when it is `None`, since the body never raises). -/
def perform_whois_sync (w : String → Option WhoisData) (t : WhoisTool)
    (domain : String) : Option WhoisResult × WhoisTool :=
  match lruFind t.cache domain with
  | some v => (v, { t with cache := lruTouch t.cache domain v })
  | none =>
    let t1 : WhoisTool := { t with collabCalls := t.collabCalls + 1 }
    match w domain with
    | some data =>
      let r : WhoisResult := mkResult domain data
      (some r,
       { t1 with
          results := t1.results ++ [r]
          cache := lruInsert t1.cache domain (some r) })
    | none => (none, { t1 with cache := lruInsert t1.cache domain none })

/-- `WhoisTool.perform_whois_async` (src/main.py lines 41-52): it runs
`_perform_whois_sync` on the executor, awaits it, and catches every
exception, returning `None` in that case.  The sync body is total in this
embedding (it already catches all exceptions), so the wrapper returns
exactly what the sync lookup returns. -/
def perform_whois_async (w : String → Option WhoisData) (t : WhoisTool)
    (domain : String) : Option WhoisResult × WhoisTool :=
  perform_whois_sync w t domain

/-- Runs a sequence of lookups left to right, threading the tool state. -/
def runLookups (w : String → Option WhoisData) :
    WhoisTool → List String → WhoisTool
  | t, [] => t
  | t, d :: ds => runLookups w (perform_whois_sync w t d).2 ds

/-- One line of `WhoisTool.display_result` (src/main.py lines 88-90):
a dict entry is printed (as a key/value pair, colour codes elided) exactly
when its value is truthy, i.e. not `None` and not the empty string. -/
def displayEntry (p : String × Option String) : Option (String × String) :=
  match p.2 with
  | some v => if v = "" then none else some (p.1, v)
  | none => none

/-- `WhoisTool.display_result` (src/main.py lines 79-90): with no result it
prints only an error banner (no fields); with a result it prints, from the
record's `to_dict`, the entries whose values are truthy. -/
def display_result : Option WhoisResult → List (String × String)
  | none => []
  | some r => (r.to_dict).filterMap displayEntry

/-- A JSON value as `json.dump` structures it for this program. -/
inductive JVal where
  | jnull : JVal
  | jstr : String → JVal
  | jarr : List JVal → JVal
  | jobj : List (String × JVal) → JVal

/-- A `to_dict` value as JSON: the string itself, or `null` when absent. -/
def jsonOfOpt : Option String → JVal
  | none => .jnull
  | some s => .jstr s

/-- One record as `json.dump` serializes it: the object of its `to_dict`
entries, keys in field order, values string or `null`. -/
def jsonOfResult (r : WhoisResult) : JVal :=
  .jobj ((r.to_dict).map (fun p => (p.1, jsonOfOpt p.2)))

/-- One filesystem/logging effect an export performs, in order. -/
inductive FsOp where
  | mkdirParents : String → FsOp
  | openWrite : String → FsOp
  | writeJsonVal : JVal → FsOp
  | writeRow : List String → FsOp
  | logInfo : FsOp
  | logError : FsOp

/-- How an export terminates: distinct empty-store condition
(`ValueError("No results to export")`) versus a filesystem error. -/
inductive ExportErr where
  | emptyExport : ExportErr
  | ioError : ExportErr
deriving DecidableEq

/-- Filesystem oracle: which `mkdir(parents=True, exist_ok=True)` and
`open('w')` calls succeed for a given target path. -/
structure FileSys where
  mkdirOk : String → Bool
  openOk : String → Bool

/-- `WhoisTool.export_to_json` (src/main.py lines 92-106): create the
parent directories, open the file truncating it, dump the ordered list of
`to_dict` maps as one JSON array, and log success; any exception while
doing so is logged and re-raised.  Returns the outcome, the effect trace,
and the (untouched) tool state. -/
def export_to_json (fs : FileSys) (t : WhoisTool) (filename : String) :
    Except ExportErr Unit × List FsOp × WhoisTool :=
  if fs.mkdirOk filename then
    if fs.openOk filename then
      (.ok (),
       [.mkdirParents filename, .openWrite filename,
        .writeJsonVal (.jarr (t.results.map jsonOfResult)), .logInfo],
       t)
    else (.error .ioError, [.mkdirParents filename, .logError], t)
  else (.error .ioError, [.logError], t)

/-- One CSV cell as `csv.DictWriter` renders a `to_dict` value: the string
itself, or the empty string for `None`. -/
def csvCell : Option String → String
  | none => ""
  | some s => s

/-- One CSV data row: `csv.DictWriter` emits, for each field name of its
header, the row dict's value for that key rendered by `csvCell`. -/
def csvRow (fieldnames : List String) (r : WhoisResult) : List String :=
  fieldnames.map (fun k => csvCell ((dictLookup k r.to_dict).bind id))

/-- `WhoisTool.export_to_csv` (src/main.py lines 108-122): create the
parent directories, open the file truncating it, then — only after the
file is open — raise the distinct `ValueError` if the store is empty;
otherwise build a `DictWriter` whose header is the first record's
`to_dict` keys, write the header row and one row per record, and log
success.  Any exception (the empty-store `ValueError` included) is logged
and re-raised.  Returns the outcome, the effect trace, and the
(untouched) tool state. -/
def export_to_csv (fs : FileSys) (t : WhoisTool) (filename : String) :
    Except ExportErr Unit × List FsOp × WhoisTool :=
  if fs.mkdirOk filename then
    if fs.openOk filename then
      match t.results with
      | [] =>
        (.error .emptyExport,
         [.mkdirParents filename, .openWrite filename, .logError], t)
      | r :: _ =>
        let fieldnames := (r.to_dict).map Prod.fst
        (.ok (),
         [FsOp.mkdirParents filename, FsOp.openWrite filename,
          FsOp.writeRow fieldnames] ++
           t.results.map (fun x => FsOp.writeRow (csvRow fieldnames x)) ++
           [FsOp.logInfo],
         t)
    else (.error .ioError, [.mkdirParents filename, .logError], t)
  else (.error .ioError, [.logError], t)

/-- The data rows an effect trace actually wrote, in order. -/
def rowsWritten : List FsOp → List (List String)
  | [] => []
  | .writeRow row :: ops => row :: rowsWritten ops
  | .mkdirParents _ :: ops => rowsWritten ops
  | .openWrite _ :: ops => rowsWritten ops
  | .writeJsonVal _ :: ops => rowsWritten ops
  | .logInfo :: ops => rowsWritten ops
  | .logError :: ops => rowsWritten ops

/-! Concrete sample data, used to instantiate theorems on closed inputs.
`exData` is the spec §8 example collaborator answer for example.com. -/

/-- Sample collaborator answer: registrar IANA, status list of one code. -/
def exData : WhoisData :=
  { registrar := some (.single (.pstr "IANA"))
    whois_server := none
    creation_date := none
    expiration_date := none
    updated_date := none
    status := some (.plist [.pstr "active"])
    name_servers := none
    emails := none }

/-- Collaborator oracle that answers every domain with `exData`. -/
def wEx : String → Option WhoisData := fun _ => some exData

/-- Collaborator oracle that fails (raises) on every domain. -/
def wFail : String → Option WhoisData := fun _ => none

/-- The record a successful lookup of example.com against `wEx` builds. -/
def exResult : WhoisResult :=
  { domain := "example.com"
    registrar := some (.single (.pstr "IANA"))
    whois_server := none
    creation_date := none
    expiration_date := none
    updated_date := none
    status := some (.plist [.pstr "active"])
    name_servers := none
    emails := none }

/-- A session state holding one completed lookup. -/
def toolEx : WhoisTool :=
  { results := [exResult]
    cache := [("example.com", some exResult)]
    collabCalls := 1 }

/-- Filesystem oracle on which every mkdir and open succeeds. -/
def fsGood : FileSys :=
  { mkdirOk := fun _ => true, openOk := fun _ => true }

/-! Cache well-formedness.  Every state the program can actually reach
satisfies both properties below: they hold of the fresh tool and are
preserved by every lookup. -/

/-- Every memoized success for key `k` stores a record whose domain is
`k` (the body only ever caches the record it built for its argument). -/
def CacheDomInv (t : WhoisTool) : Prop :=
  ∀ p ∈ t.cache, ∀ r : WhoisResult, p.2 = some r → r.domain = p.1

/-- Cache keys are pairwise distinct (`lru_cache` keeps one slot per
key). -/
def CacheKeysNodup (t : WhoisTool) : Prop :=
  (t.cache.map Prod.fst).Nodup

/-- The attribute of a `WhoisResult` named by a field-name string, as the
Python value it holds (the always-set domain string included). -/
def getPyField (r : WhoisResult) : String → Option PyVal
  | "domain" => some (.single (.pstr r.domain))
  | "registrar" => r.registrar
  | "whois_server" => r.whois_server
  | "creation_date" => r.creation_date
  | "expiration_date" => r.expiration_date
  | "updated_date" => r.updated_date
  | "status" => r.status
  | "name_servers" => r.name_servers
  | "emails" => r.emails
  | _ => none

/-- Row extraction distributes over trace concatenation. -/
lemma rowsWritten_append (a b : List FsOp) :
    rowsWritten (a ++ b) = rowsWritten a ++ rowsWritten b := by
  induction a with
  | nil => rfl
  | cons op ops ih => cases op <;> simp [rowsWritten, ih]

/-- Row extraction over a list of written rows gives back those rows. -/
lemma rowsWritten_map_writeRow (g : WhoisResult → List String)
    (l : List WhoisResult) :
    rowsWritten (l.map (fun x => FsOp.writeRow (g x))) = l.map g := by
  induction l with
  | nil => rfl
  | cons x l ih => simp [rowsWritten, ih]

/-- A cache hit comes from an entry of the cache. -/
lemma lruFind_mem {c : List (String × Option WhoisResult)} {k : String}
    {v : Option WhoisResult} (h : lruFind c k = some v) : (k, v) ∈ c := by
  unfold lruFind at h
  rcases Option.map_eq_some'.mp h with ⟨p, hp, hv⟩
  have hk : p.1 = k := by
    have := List.find?_some hp
    simpa using this
  have hm := List.mem_of_find?_eq_some hp
  rcases p with ⟨k0, v0⟩
  cases hk
  cases hv
  exact hm

/-- A cache miss means no entry of the cache carries the key. -/
lemma lruFind_none {c : List (String × Option WhoisResult)} {k : String}
    (h : lruFind c k = none) : ∀ v, (k, v) ∉ c := by
  intro v hv
  unfold lruFind at h
  rcases Option.map_eq_none'.mp h with hfind
  have := List.find?_eq_none.mp hfind (k, v) hv
  simp at this

/-- With pairwise distinct keys, the cache relates each key to at most
one value. -/
lemma mem_unique_of_nodup_keys {c : List (String × Option WhoisResult)}
    (hnd : (c.map Prod.fst).Nodup) {k : String} {a b : Option WhoisResult}
    (ha : (k, a) ∈ c) (hb : (k, b) ∈ c) : a = b := by
  induction c with
  | nil => cases ha
  | cons p c ih =>
    simp only [List.map_cons, List.nodup_cons] at hnd
    rcases List.mem_cons.mp ha with ha1 | ha1 <;>
      rcases List.mem_cons.mp hb with hb1 | hb1
    · rw [← ha1] at hb1; exact (congrArg Prod.snd hb1.symm)
    · exfalso
      apply hnd.1
      have hk : p.1 = k := by rw [← ha1]
      rw [hk]
      simpa using List.mem_map_of_mem Prod.fst hb1
    · exfalso
      apply hnd.1
      have hk : p.1 = k := by rw [← hb1]
      rw [hk]
      simpa using List.mem_map_of_mem Prod.fst ha1
    · exact ih hnd.2 ha1 hb1

/-- An entry of the cache after an insertion is the inserted entry or an
old one (eviction only removes entries). -/
lemma mem_lruInsert_elim {c : List (String × Option WhoisResult)}
    {k : String} {v : Option WhoisResult} {p : String × Option WhoisResult}
    (h : p ∈ lruInsert c k v) : p = (k, v) ∨ p ∈ c := by
  unfold lruInsert at h
  by_cases hlen : ((k, v) :: c).length > 128
  · simp only [hlen, if_pos] at h
    exact List.mem_cons.mp (List.dropLast_subset _ h)
  · simp only [hlen, if_neg, not_false_iff] at h
    exact List.mem_cons.mp h

/-- An entry of the cache after a hit refresh is the refreshed entry or an
old one. -/
lemma mem_lruTouch_elim {c : List (String × Option WhoisResult)}
    {k : String} {v : Option WhoisResult} {p : String × Option WhoisResult}
    (h : p ∈ lruTouch c k v) : p = (k, v) ∨ p ∈ c := by
  unfold lruTouch at h
  rcases List.mem_cons.mp h with h1 | h1
  · exact Or.inl h1
  · exact Or.inr (List.mem_of_mem_filter h1)

/-- The fresh tool satisfies the cache/domain invariant. -/
lemma initTool_CacheDomInv : CacheDomInv initTool := by
  intro p hp
  simp [initTool] at hp

/-- Every lookup preserves the cache/domain invariant, so it holds in all
reachable states. -/
lemma sync_preserves_CacheDomInv (w : String → Option WhoisData)
    (t : WhoisTool) (d : String) (h : CacheDomInv t) :
    CacheDomInv (perform_whois_sync w t d).2 := by
  intro p hp r hpr
  rcases hf : lruFind t.cache d with _ | v
  · rcases hw : w d with _ | data
    · simp only [perform_whois_sync, hf, hw] at hp
      rcases mem_lruInsert_elim hp with h1 | h1
      · rw [h1] at hpr; cases hpr
      · exact h p h1 r hpr
    · simp only [perform_whois_sync, hf, hw] at hp
      rcases mem_lruInsert_elim hp with h1 | h1
      · rw [h1] at hpr
        cases hpr
        rw [h1]
        rfl
      · exact h p h1 r hpr
  · simp only [perform_whois_sync, hf] at hp
    rcases mem_lruTouch_elim hp with h1 | h1
    · rw [h1] at hpr
      cases hpr
      rw [h1]
      exact h (d, some r) (lruFind_mem hf) r rfl
    · exact h p h1 r hpr

/-- C1: for every domain string D, the lookup boundary
(`perform_whois_async`, delegating to `_perform_whois_sync`) returns
either a record whose `domain` field is D, or the explicit failure
indicator `None`; the boundary is a total function in this embedding
because both layers catch every exception of the collaborator, so nothing
propagates past it.  The hypothesis is the cache/domain invariant, which
holds in every reachable state (`initTool_CacheDomInv`,
`sync_preserves_CacheDomInv`). -/
theorem C1_lookup_never_raises (w : String → Option WhoisData)
    (t : WhoisTool) (d : String) (hinv : CacheDomInv t) :
    (perform_whois_async w t d).1 = none ∨
    ∃ r : WhoisResult,
      (perform_whois_async w t d).1 = some r ∧ r.domain = d := by
  rcases hf : lruFind t.cache d with _ | v
  · rcases hw : w d with _ | data
    · left
      simp [perform_whois_async, perform_whois_sync, hf, hw]
    · right
      refine ⟨mkResult d data, ?_, rfl⟩
      simp [perform_whois_async, perform_whois_sync, hf, hw]
  · rcases v with _ | r
    · left
      simp [perform_whois_async, perform_whois_sync, hf]
    · right
      exact ⟨r, by simp [perform_whois_async, perform_whois_sync, hf],
             hinv (d, some r) (lruFind_mem hf) r rfl⟩

/-- Inserting under one key cannot make another key found. -/
lemma lruFind_lruInsert_ne {c : List (String × Option WhoisResult)}
    {k k2 : String} (v : Option WhoisResult)
    (h2 : lruFind c k2 = none) (hne : k2 ≠ k) :
    lruFind (lruInsert c k v) k2 = none := by
  unfold lruFind
  rw [Option.map_eq_none']
  rw [List.find?_eq_none]
  intro p hp
  rcases mem_lruInsert_elim hp with h1 | h1
  · rw [h1]
    simp only [beq_iff_eq]
    exact fun hk => hne hk.symm
  · have hall := List.find?_eq_none.mp (Option.map_eq_none'.mp h2) p h1
    exact hall

/-- Store contents after a run of lookups that are all cache misses and
all successful: one record per lookup, appended in call order. -/
lemma runLookups_fresh_results (w : String → Option WhoisData) :
    ∀ (ds : List String) (t : WhoisTool), ds.Nodup →
      (∀ d ∈ ds, (w d).isSome = true) →
      (∀ d ∈ ds, lruFind t.cache d = none) →
      (runLookups w t ds).results.map WhoisResult.domain =
        t.results.map WhoisResult.domain ++ ds := by
  intro ds
  induction ds with
  | nil => intro t _ _ _; simp [runLookups]
  | cons d ds ih =>
    intro t hnd hok hfresh
    have hfd : lruFind t.cache d = none := hfresh d (List.mem_cons_self d ds)
    rcases hw : w d with _ | data
    · exfalso
      have := hok d (List.mem_cons_self d ds)
      rw [hw] at this
      simp at this
    · have hstep :
          (perform_whois_sync w t d).2 =
            { t with
                collabCalls := t.collabCalls + 1
                results := t.results ++ [mkResult d data]
                cache := lruInsert t.cache d (some (mkResult d data)) } := by
        simp [perform_whois_sync, hfd, hw]
      have hrest :
          (runLookups w (perform_whois_sync w t d).2 ds).results.map
              WhoisResult.domain =
            (perform_whois_sync w t d).2.results.map WhoisResult.domain
              ++ ds := by
        apply ih (perform_whois_sync w t d).2 (List.Nodup.of_cons hnd)
        · intro d2 hd2
          exact hok d2 (List.mem_cons_of_mem d hd2)
        · intro d2 hd2
          rw [hstep]
          apply lruFind_lruInsert_ne _ (hfresh d2 (List.mem_cons_of_mem d hd2))
          intro heq
          rw [heq] at hd2
          exact (List.nodup_cons.mp hnd).1 hd2
      calc (runLookups w t (d :: ds)).results.map WhoisResult.domain
          = (runLookups w (perform_whois_sync w t d).2 ds).results.map
              WhoisResult.domain := by rw [runLookups]
        _ = (perform_whois_sync w t d).2.results.map WhoisResult.domain
              ++ ds := hrest
        _ = t.results.map WhoisResult.domain ++ d :: ds := by
              rw [hstep]
              simp [mkResult]

/-- C2 as frozen is false on the code: two successful lookups of the same
domain string leave one record in the store, not two, because the second
call is an `lru_cache` hit and the memoized body — including
`self.results.append` — does not run again. -/
theorem C2_counterexample :
    (perform_whois_sync wEx initTool "example.com").1.isSome = true ∧
    (perform_whois_sync wEx (perform_whois_sync wEx initTool "example.com").2
        "example.com").1.isSome = true ∧
    (perform_whois_sync wEx (perform_whois_sync wEx initTool "example.com").2
        "example.com").2.results.length ≠ 2 := by
  refine ⟨rfl, rfl, ?_⟩
  intro h
  simp [perform_whois_sync, lruFind, lruInsert, lruTouch, initTool, wEx] at h

/-- C2 amended: after N successful lookups that actually reach the store —
i.e. lookups of pairwise distinct domain strings, so none is served from
the memoization cache — the store holds exactly N records, in call order
(a repeated lookup of a cached domain returns the cached record without
appending). -/
theorem C2_store_accumulates (w : String → Option WhoisData)
    (ds : List String) (hnd : ds.Nodup)
    (hok : ∀ d ∈ ds, (w d).isSome = true) :
    (runLookups w initTool ds).results.map WhoisResult.domain = ds := by
  have h := runLookups_fresh_results w ds initTool hnd hok
    (fun d _ => by simp [initTool, lruFind])
  simpa [initTool] using h

/-- C2 amended theorem instantiated: two successful lookups of distinct
domains leave exactly those two records, in order. -/
theorem C2_store_accumulates_witness :
    (["a.com", "b.com"] : List String).Nodup ∧
    (∀ d ∈ (["a.com", "b.com"] : List String), (wEx d).isSome = true) ∧
    (runLookups wEx initTool ["a.com", "b.com"]).results.map
        WhoisResult.domain = ["a.com", "b.com"] :=
  ⟨by decide, by decide,
   C2_store_accumulates wEx ["a.com", "b.com"] (by decide) (by decide)⟩

/-- C3: with the store empty (and the filesystem itself cooperating, so
no I/O error pre-empts it), `export_to_csv` fails with the distinct
empty-export condition, and the emptiness check fires before any attempt
to write the header: the effect trace contains no written row at all, so
no file content is written on this path. -/
theorem C3_csv_empty_export (fs : FileSys) (t : WhoisTool) (fn : String)
    (hempty : t.results = []) (hm : fs.mkdirOk fn = true)
    (ho : fs.openOk fn = true) :
    (export_to_csv fs t fn).1 = .error .emptyExport ∧
    rowsWritten (export_to_csv fs t fn).2.1 = [] := by
  constructor
  · simp [export_to_csv, hempty, hm, ho]
  · simp [export_to_csv, hempty, hm, ho, rowsWritten]

/-- C3 instantiated on the fresh tool: empty-export error, no rows. -/
theorem C3_witness :
    initTool.results = [] ∧
    (export_to_csv fsGood initTool "out.csv").1 =
      Except.error ExportErr.emptyExport ∧
    rowsWritten (export_to_csv fsGood initTool "out.csv").2.1 = [] :=
  ⟨rfl,
   (C3_csv_empty_export fsGood initTool "out.csv" rfl rfl rfl).1,
   (C3_csv_empty_export fsGood initTool "out.csv" rfl rfl rfl).2⟩

/-- C7: on a non-empty store (with the filesystem cooperating) the CSV
export writes a header row equal to the first stored record's field names
in insertion order, then one data row per stored record: the file has
exactly store-size + 1 rows. -/
theorem C7_csv_header_and_rows (fs : FileSys) (t : WhoisTool) (fn : String)
    (r : WhoisResult) (rs : List WhoisResult) (hres : t.results = r :: rs)
    (hm : fs.mkdirOk fn = true) (ho : fs.openOk fn = true) :
    rowsWritten (export_to_csv fs t fn).2.1 =
      (r.to_dict).map Prod.fst ::
        t.results.map (csvRow ((r.to_dict).map Prod.fst)) ∧
    (rowsWritten (export_to_csv fs t fn).2.1).length =
      t.results.length + 1 := by
  have h1 : rowsWritten (export_to_csv fs t fn).2.1 =
      (r.to_dict).map Prod.fst ::
        t.results.map (csvRow ((r.to_dict).map Prod.fst)) := by
    simp [export_to_csv, hres, hm, ho, rowsWritten_append,
      rowsWritten_map_writeRow, rowsWritten]
  refine ⟨h1, ?_⟩
  rw [h1, hres]
  simp

/-- C7 instantiated on a one-record store: header plus one data row. -/
theorem C7_witness :
    toolEx.results = exResult :: [] ∧
    rowsWritten (export_to_csv fsGood toolEx "out.csv").2.1 =
      (exResult.to_dict).map Prod.fst ::
        toolEx.results.map (csvRow ((exResult.to_dict).map Prod.fst)) ∧
    (rowsWritten (export_to_csv fsGood toolEx "out.csv").2.1).length =
      toolEx.results.length + 1 :=
  ⟨rfl,
   (C7_csv_header_and_rows fsGood toolEx "out.csv" exResult [] rfl rfl
     rfl).1,
   (C7_csv_header_and_rows fsGood toolEx "out.csv" exResult [] rfl rfl
     rfl).2⟩

/-- C9: unlike the CSV export, `export_to_json` on an empty store does not
raise the empty-export condition: it succeeds, and the content it writes
is the empty JSON array. -/
theorem C9_json_empty_store_ok (fs : FileSys) (t : WhoisTool) (fn : String)
    (hempty : t.results = []) (hm : fs.mkdirOk fn = true)
    (ho : fs.openOk fn = true) :
    (export_to_json fs t fn).1 = .ok () ∧
    FsOp.writeJsonVal (.jarr []) ∈ (export_to_json fs t fn).2.1 := by
  constructor
  · simp [export_to_json, hm, ho]
  · simp [export_to_json, hempty, hm, ho]

/-- C9 instantiated on the fresh tool: success and an empty array write. -/
theorem C9_witness :
    initTool.results = [] ∧
    (export_to_json fsGood initTool "out.json").1 = Except.ok () ∧
    FsOp.writeJsonVal (.jarr []) ∈
      (export_to_json fsGood initTool "out.json").2.1 :=
  ⟨rfl,
   (C9_json_empty_store_ok fsGood initTool "out.json" rfl rfl rfl).1,
   (C9_json_empty_store_ok fsGood initTool "out.json" rfl rfl rfl).2⟩

/-- C6: when the filesystem cooperates, `export_to_json` creates the
parent directories, opens the file, and writes exactly one JSON array
holding, in store order, each record's `to_dict` as an object with string
values and `null` for absent fields; when mkdir or open fails, the I/O
error is logged (the trace carries the log effect) and re-raised to the
caller. -/
theorem C6_json_export (fs : FileSys) (t : WhoisTool) (fn : String) :
    (fs.mkdirOk fn = true → fs.openOk fn = true →
      export_to_json fs t fn =
        (.ok (),
         [.mkdirParents fn, .openWrite fn,
          .writeJsonVal (.jarr (t.results.map (fun r =>
            .jobj ((r.to_dict).map (fun p => (p.1, jsonOfOpt p.2)))))),
          .logInfo], t)) ∧
    (fs.mkdirOk fn = false ∨ fs.openOk fn = false →
      (export_to_json fs t fn).1 = .error .ioError ∧
      FsOp.logError ∈ (export_to_json fs t fn).2.1) := by
  constructor
  · intro hm ho
    simp [export_to_json, hm, ho, jsonOfResult]
  · intro hbad
    rcases hbad with hb | hb
    · simp [export_to_json, hb]
    · by_cases hm : fs.mkdirOk fn = true
      · simp [export_to_json, hm, hb]
      · simp only [Bool.not_eq_true] at hm
        simp [export_to_json, hm]

/-- C6 instantiated: on the one-record store and a good filesystem, the
export succeeds with exactly the serialized array in its trace. -/
theorem C6_witness :
    fsGood.mkdirOk "out.json" = true ∧ fsGood.openOk "out.json" = true ∧
    export_to_json fsGood toolEx "out.json" =
      (.ok (),
       [.mkdirParents "out.json", .openWrite "out.json",
        .writeJsonVal (.jarr (toolEx.results.map (fun r =>
          .jobj ((r.to_dict).map (fun p => (p.1, jsonOfOpt p.2)))))),
        .logInfo], toolEx) :=
  ⟨rfl, rfl, (C6_json_export fsGood toolEx "out.json").1 rfl rfl⟩

/-- C10: neither export operation modifies the session store — whatever
the filesystem does and whether the export succeeds or raises, the store
carried out of the call is exactly the store that went in. -/
theorem C10_exports_preserve_store (fs : FileSys) (t : WhoisTool)
    (fn : String) :
    (export_to_json fs t fn).2.2.results = t.results ∧
    (export_to_csv fs t fn).2.2.results = t.results := by
  constructor
  · unfold export_to_json
    by_cases hm : fs.mkdirOk fn = true <;>
      by_cases ho : fs.openOk fn = true <;>
        simp [hm, ho]
  · unfold export_to_csv
    by_cases hm : fs.mkdirOk fn = true <;>
      by_cases ho : fs.openOk fn = true <;>
        cases hres : t.results <;>
          simp [hm, ho, hres]

/-- Equation for the cache-hit branch of the memoized lookup. -/
lemma sync_hit (w : String → Option WhoisData) (t : WhoisTool) (d : String)
    (v : Option WhoisResult) (hf : lruFind t.cache d = some v) :
    perform_whois_sync w t d =
      (v, { t with cache := lruTouch t.cache d v }) := by
  simp [perform_whois_sync, hf]

/-- A miss means the key is not among the cache keys. -/
lemma lruFind_none_not_key {c : List (String × Option WhoisResult)}
    {k : String} (h : lruFind c k = none) : k ∉ c.map Prod.fst := by
  intro hk
  rcases List.mem_map.mp hk with ⟨p, hp, hp1⟩
  exact lruFind_none h p.2 (by rw [← hp1]; exact hp)

/-- With pairwise distinct keys, a stored entry is what a find returns. -/
lemma lruFind_of_mem {c : List (String × Option WhoisResult)}
    (hnd : (c.map Prod.fst).Nodup) {k : String} {v : Option WhoisResult}
    (h : (k, v) ∈ c) : lruFind c k = some v := by
  induction c with
  | nil => cases h
  | cons p c ih =>
    simp only [List.map_cons, List.nodup_cons] at hnd
    by_cases hk : p.1 = k
    · have hpv : p = (k, v) := by
        rcases List.mem_cons.mp h with h1 | h1
        · exact h1.symm
        · exfalso
          apply hnd.1
          rw [hk]
          simpa using List.mem_map_of_mem Prod.fst h1
      rw [hpv]
      simp [lruFind]
    · have h1 : (k, v) ∈ c := by
        rcases List.mem_cons.mp h with h1 | h1
        · exfalso; exact hk (by rw [← h1])
        · exact h1
      have := ih hnd.2 h1
      simpa [lruFind, List.find?_cons_of_neg, hk] using this

/-- A hit refresh keeps the cache keys pairwise distinct. -/
lemma lruTouch_keys_nodup {c : List (String × Option WhoisResult)}
    (hnd : (c.map Prod.fst).Nodup) (k : String) (v : Option WhoisResult) :
    ((lruTouch c k v).map Prod.fst).Nodup := by
  unfold lruTouch
  simp only [List.map_cons, List.nodup_cons]
  constructor
  · intro hk
    rcases List.mem_map.mp hk with ⟨p, hp, hp1⟩
    have := List.of_mem_filter hp
    rw [hp1] at this
    simp at this
  · exact ((List.filter_sublist c).map Prod.fst).nodup hnd

/-- An insertion of a fresh key keeps the cache keys pairwise distinct. -/
lemma lruInsert_keys_nodup {c : List (String × Option WhoisResult)}
    (hnd : (c.map Prod.fst).Nodup) {k : String} (v : Option WhoisResult)
    (hfresh : k ∉ c.map Prod.fst) :
    ((lruInsert c k v).map Prod.fst).Nodup := by
  unfold lruInsert
  have hcons : (((k, v) :: c).map Prod.fst).Nodup := by
    simp only [List.map_cons, List.nodup_cons]
    exact ⟨hfresh, hnd⟩
  by_cases hlen : ((k, v) :: c).length > 128
  · simp only [hlen, if_pos]
    exact ((List.dropLast_sublist _).map Prod.fst).nodup hcons
  · simpa only [hlen, if_neg, not_false_iff] using hcons

/-- Every lookup keeps the cache keys pairwise distinct. -/
lemma sync_keys_nodup (w : String → Option WhoisData) (t : WhoisTool)
    (d : String) (hnd : CacheKeysNodup t) :
    CacheKeysNodup (perform_whois_sync w t d).2 := by
  unfold CacheKeysNodup at *
  rcases hf : lruFind t.cache d with _ | v
  · rcases hw : w d with _ | data
    · simp only [perform_whois_sync, hf, hw]
      exact lruInsert_keys_nodup hnd none (lruFind_none_not_key hf)
    · simp only [perform_whois_sync, hf, hw]
      exact lruInsert_keys_nodup hnd _ (lruFind_none_not_key hf)
  · simp only [perform_whois_sync, hf]
    exact lruTouch_keys_nodup hnd d v

/-- The key just looked up is cached afterwards, bound to the value the
lookup returned. -/
lemma sync_self_mem (w : String → Option WhoisData) (t : WhoisTool)
    (d : String) :
    (d, (perform_whois_sync w t d).1) ∈ (perform_whois_sync w t d).2.cache := by
  have hhead : ∀ (c : List (String × Option WhoisResult)) (v : Option WhoisResult),
      (d, v) ∈ lruInsert c d v := by
    intro c v
    unfold lruInsert
    by_cases hlen : ((d, v) :: c).length > 128
    · simp only [hlen, if_pos]
      rcases c with _ | ⟨p, c⟩
      · simp at hlen
      · simp [List.dropLast]
    · simp only [hlen, if_neg, not_false_iff]
      exact List.mem_cons_self _ _
  rcases hf : lruFind t.cache d with _ | v
  · rcases hw : w d with _ | data
    · simp only [perform_whois_sync, hf, hw]
      exact hhead _ _
    · simp only [perform_whois_sync, hf, hw]
      exact hhead _ _
  · simp only [perform_whois_sync, hf]
    exact List.mem_cons_self _ _

/-- Each cache key after a lookup is the looked-up domain or an old key. -/
lemma sync_keys_subset (w : String → Option WhoisData) (t : WhoisTool)
    (d : String) :
    ∀ x ∈ (perform_whois_sync w t d).2.cache.map Prod.fst,
      x = d ∨ x ∈ t.cache.map Prod.fst := by
  intro x hx
  rcases List.mem_map.mp hx with ⟨p, hp, hp1⟩
  have helim : p = (d, (perform_whois_sync w t d).1) ∨ p ∈ t.cache ∨
      (∃ v, p = (d, v)) := by
    rcases hf : lruFind t.cache d with _ | v
    · rcases hw : w d with _ | data
      · simp only [perform_whois_sync, hf, hw] at hp
        rcases mem_lruInsert_elim hp with h1 | h1
        · exact Or.inr (Or.inr ⟨none, h1⟩)
        · exact Or.inr (Or.inl h1)
      · simp only [perform_whois_sync, hf, hw] at hp
        rcases mem_lruInsert_elim hp with h1 | h1
        · exact Or.inr (Or.inr ⟨_, h1⟩)
        · exact Or.inr (Or.inl h1)
    · simp only [perform_whois_sync, hf] at hp
      rcases mem_lruTouch_elim hp with h1 | h1
      · exact Or.inr (Or.inr ⟨v, h1⟩)
      · exact Or.inr (Or.inl h1)
  rcases helim with h1 | h1 | ⟨v, h1⟩
  · left; rw [← hp1, h1]
  · right; rw [← hp1]; exact List.mem_map_of_mem Prod.fst h1
  · left; rw [← hp1, h1]

/-- Distinct-count monotonicity under list inclusion. -/
lemma dedup_length_le_of_subset {l1 l2 : List String} (h : l1 ⊆ l2) :
    l1.dedup.length ≤ l2.dedup.length := by
  rw [← List.card_toFinset, ← List.card_toFinset]
  apply Finset.card_le_card
  intro x hx
  rw [List.mem_toFinset] at hx ⊢
  exact h hx

/-- As long as the looked-up domain and the cached keys together stay
within the 128-entry bound, a lookup evicts nothing: every cached entry
survives it. -/
lemma sync_cache_mem_preserved (w : String → Option WhoisData)
    (t : WhoisTool) (d : String) (hnd : CacheKeysNodup t)
    (hcard : (d :: t.cache.map Prod.fst).dedup.length ≤ 128) :
    ∀ p ∈ t.cache, p ∈ (perform_whois_sync w t d).2.cache := by
  intro p hp
  rcases hf : lruFind t.cache d with _ | v
  · have hfresh : d ∉ t.cache.map Prod.fst := lruFind_none_not_key hf
    have hnodup : (d :: t.cache.map Prod.fst).Nodup :=
      List.nodup_cons.mpr ⟨hfresh, hnd⟩
    have hlen : t.cache.length + 1 ≤ 128 := by
      have h1 : (d :: t.cache.map Prod.fst).dedup.length =
          t.cache.length + 1 := by
        rw [hnodup.dedup]
        simp
      rw [h1] at hcard
      exact hcard
    have hnoev : ∀ (v0 : Option WhoisResult),
        lruInsert t.cache d v0 = (d, v0) :: t.cache := by
      intro v0
      unfold lruInsert
      have : ¬ ((d, v0) :: t.cache).length > 128 := by
        simp only [List.length_cons]
        omega
      simp only [this, if_neg, not_false_iff]
    rcases hw : w d with _ | data
    · simp only [perform_whois_sync, hf, hw, hnoev]
      exact List.mem_cons_of_mem _ hp
    · simp only [perform_whois_sync, hf, hw, hnoev]
      exact List.mem_cons_of_mem _ hp
  · simp only [perform_whois_sync, hf]
    unfold lruTouch
    by_cases hpk : p.1 = d
    · have hpv : p = (d, v) := by
        have hm : (d, v) ∈ t.cache := lruFind_mem hf
        have : p.2 = v := by
          apply mem_unique_of_nodup_keys hnd _ hm
          rw [← hpk]
          exact hp
        rcases p with ⟨p1, p2⟩
        simp only at hpk this
        rw [hpk, this]
      rw [hpv]
      exact List.mem_cons_self _ _
    · apply List.mem_cons_of_mem
      apply List.mem_filter_of_mem hp
      simp [hpk]

/-- Running any lookups that stay within the 128-distinct-domain bound
preserves every cached entry, keeps keys distinct, and only ever adds the
looked-up domains as keys. -/
lemma runLookups_cache_preserved (w : String → Option WhoisData) :
    ∀ (ds : List String) (t : WhoisTool), CacheKeysNodup t →
      (t.cache.map Prod.fst ++ ds).dedup.length ≤ 128 →
      CacheKeysNodup (runLookups w t ds) ∧
      (∀ p ∈ t.cache, p ∈ (runLookups w t ds).cache) ∧
      (∀ x ∈ (runLookups w t ds).cache.map Prod.fst,
        x ∈ t.cache.map Prod.fst ++ ds) := by
  intro ds
  induction ds with
  | nil =>
    intro t hnd _
    refine ⟨hnd, fun p hp => hp, fun x hx => ?_⟩
    simpa using hx
  | cons d ds ih =>
    intro t hnd hcard
    have hstepcard : (d :: t.cache.map Prod.fst).dedup.length ≤ 128 := by
      refine le_trans (dedup_length_le_of_subset ?_) hcard
      intro x hx
      rcases List.mem_cons.mp hx with h1 | h1
      · rw [h1]
        exact List.mem_append_right _ (List.mem_cons_self _ _)
      · exact List.mem_append_left _ h1
    have hnd1 : CacheKeysNodup (perform_whois_sync w t d).2 :=
      sync_keys_nodup w t d hnd
    have hcard1 :
        ((perform_whois_sync w t d).2.cache.map Prod.fst ++ ds).dedup.length
          ≤ 128 := by
      refine le_trans (dedup_length_le_of_subset ?_) hcard
      intro x hx
      rcases List.mem_append.mp hx with h1 | h1
      · rcases sync_keys_subset w t d x h1 with h2 | h2
        · rw [h2]
          exact List.mem_append_right _ (List.mem_cons_self _ _)
        · exact List.mem_append_left _ h2
      · exact List.mem_append_right _ (List.mem_cons_of_mem _ h1)
    obtain ⟨ha, hb, hc⟩ := ih (perform_whois_sync w t d).2 hnd1 hcard1
    refine ⟨by simpa [runLookups] using ha, ?_, ?_⟩
    · intro p hp
      have hp1 : p ∈ (perform_whois_sync w t d).2.cache :=
        sync_cache_mem_preserved w t d hnd hstepcard p hp
      simpa [runLookups] using hb p hp1
    · intro x hx
      have hx1 : x ∈ (perform_whois_sync w t d).2.cache.map Prod.fst ++ ds := by
        apply hc
        simpa [runLookups] using hx
      rcases List.mem_append.mp hx1 with h1 | h1
      · rcases sync_keys_subset w t d x h1 with h2 | h2
        · rw [h2]
          exact List.mem_append_right _ (List.mem_cons_self _ _)
        · exact List.mem_append_left _ h2
      · exact List.mem_append_right _ (List.mem_cons_of_mem _ h1)

/-- C4: after a lookup of D, any further lookups that keep the set of
distinct cached domains within the 128-entry least-recently-used bound
leave D's memoized entry in place, so a repeated lookup of the exact
string D is served from the cache: it returns the very result of the
first lookup of D, and the external WHOIS collaborator is not invoked
again (the call counter is unchanged). -/
theorem C4_repeat_lookup_cached (w : String → Option WhoisData)
    (t0 : WhoisTool) (d : String) (ds : List String)
    (hnd : CacheKeysNodup t0)
    (hbound : ((perform_whois_sync w t0 d).2.cache.map Prod.fst
        ++ ds).dedup.length ≤ 128) :
    (perform_whois_sync w
        (runLookups w (perform_whois_sync w t0 d).2 ds) d).1 =
      (perform_whois_sync w t0 d).1 ∧
    (perform_whois_sync w
        (runLookups w (perform_whois_sync w t0 d).2 ds) d).2.collabCalls =
      (runLookups w (perform_whois_sync w t0 d).2 ds).collabCalls := by
  have hmem : (d, (perform_whois_sync w t0 d).1) ∈
      (perform_whois_sync w t0 d).2.cache := sync_self_mem w t0 d
  have hnd1 : CacheKeysNodup (perform_whois_sync w t0 d).2 :=
    sync_keys_nodup w t0 d hnd
  obtain ⟨hnd2, hpres, _⟩ :=
    runLookups_cache_preserved w ds (perform_whois_sync w t0 d).2 hnd1 hbound
  have hfind :
      lruFind (runLookups w (perform_whois_sync w t0 d).2 ds).cache d =
        some (perform_whois_sync w t0 d).1 :=
    lruFind_of_mem hnd2 (hpres _ hmem)
  constructor
  · rw [sync_hit w _ d _ hfind]
  · rw [sync_hit w _ d _ hfind]

/-- C4 instantiated: look up example.com, then other.com, then
example.com again; the repeat returns the first result from the cache and
the collaborator call counter does not move. -/
theorem C4_witness :
    CacheKeysNodup initTool ∧
    ((perform_whois_sync wEx initTool "example.com").2.cache.map Prod.fst
        ++ ["other.com"]).dedup.length ≤ 128 ∧
    ((perform_whois_sync wEx
        (runLookups wEx (perform_whois_sync wEx initTool "example.com").2
          ["other.com"]) "example.com").1 =
      (perform_whois_sync wEx initTool "example.com").1 ∧
     (perform_whois_sync wEx
        (runLookups wEx (perform_whois_sync wEx initTool "example.com").2
          ["other.com"]) "example.com").2.collabCalls =
      (runLookups wEx (perform_whois_sync wEx initTool "example.com").2
        ["other.com"]).collabCalls) :=
  ⟨by simp [CacheKeysNodup, initTool], by decide,
   C4_repeat_lookup_cached wEx initTool "example.com" ["other.com"]
     (by simp [CacheKeysNodup, initTool]) (by decide)⟩

/-- C5: `to_dict` maps every field name to the display string `str(v)` of
the field exactly when the field is set, and to `None` when it is not; and
console display, JSON export and CSV export all read a record only
through `to_dict`, so two records with equal `to_dict` have identical
console lines, JSON objects, and CSV rows — the three presentations agree
on every record. -/
theorem C5_to_dict_uniform :
    (∀ (r : WhoisResult), ∀ k ∈ fieldNames,
      dictLookup k r.to_dict = some ((getPyField r k).map pyStr)) ∧
    (∀ r1 r2 : WhoisResult, r1.to_dict = r2.to_dict →
      display_result (some r1) = display_result (some r2) ∧
      jsonOfResult r1 = jsonOfResult r2 ∧
      csvRow ((r1.to_dict).map Prod.fst) r1 =
        csvRow ((r2.to_dict).map Prod.fst) r2) := by
  constructor
  · intro r k hk
    fin_cases hk <;> rfl
  · intro r1 r2 h
    refine ⟨?_, ?_, ?_⟩
    · simp only [display_result, h]
    · simp only [jsonOfResult, h]
    · simp only [csvRow, h]

/-- C5 instantiated on the example record and the status field. -/
theorem C5_witness :
    "status" ∈ fieldNames ∧
    dictLookup "status" exResult.to_dict =
      some ((getPyField exResult "status").map pyStr) ∧
    (display_result (some exResult) = display_result (some exResult) ∧
     jsonOfResult exResult = jsonOfResult exResult ∧
     csvRow ((exResult.to_dict).map Prod.fst) exResult =
       csvRow ((exResult.to_dict).map Prod.fst) exResult) :=
  ⟨by decide, C5_to_dict_uniform.1 exResult "status" (by decide),
   C5_to_dict_uniform.2 exResult exResult rfl⟩

/-- C8: records are immutable after construction.  A lookup leaves every
already-stored record exactly as it was, only ever appending, and an
appended record carries as its `domain` field the very string it was
constructed with; the two exports (and the display, a pure function of a
record in this embedding) leave the store's records untouched. -/
theorem C8_records_immutable (w : String → Option WhoisData) (fs : FileSys)
    (t : WhoisTool) (d fn : String) :
    (∃ tl, (perform_whois_sync w t d).2.results = t.results ++ tl ∧
      ∀ r2 ∈ tl, r2.domain = d) ∧
    (export_to_json fs t fn).2.2.results = t.results ∧
    (export_to_csv fs t fn).2.2.results = t.results := by
  refine ⟨?_, ?_, ?_⟩
  · rcases hf : lruFind t.cache d with _ | v
    · rcases hw : w d with _ | data
      · exact ⟨[], by simp [perform_whois_sync, hf, hw], by simp⟩
      · refine ⟨[mkResult d data],
          by simp [perform_whois_sync, hf, hw], ?_⟩
        intro r2 hr2
        rw [List.mem_singleton.mp hr2]
        rfl
    · exact ⟨[], by simp [perform_whois_sync, hf], by simp⟩
  · unfold export_to_json
    by_cases hm : fs.mkdirOk fn = true <;>
      by_cases ho : fs.openOk fn = true <;>
        simp [hm, ho]
  · unfold export_to_csv
    by_cases hm : fs.mkdirOk fn = true <;>
      by_cases ho : fs.openOk fn = true <;>
        cases hres : t.results <;>
          simp [hm, ho, hres]

/-- C1 instantiated: the invariant holds of the fresh tool and the lookup
of example.com returns the record for example.com or `None`. -/
theorem C1_witness :
    CacheDomInv initTool ∧
    ((perform_whois_async wEx initTool "example.com").1 = none ∨
     ∃ r : WhoisResult,
       (perform_whois_async wEx initTool "example.com").1 = some r ∧
       r.domain = "example.com") :=
  ⟨initTool_CacheDomInv,
   C1_lookup_never_raises wEx initTool "example.com" initTool_CacheDomInv⟩
